import Mathlib

/- Verification development for the DressToImpress mobile client: a shallow embedding
of the avatar-source extraction module, the Rating screen round-coordination engine
(turn order, vote quorum, advance and round-finish guards, vote submission) and the
useLiveStream peer-session bookkeeping, together with theorems settling the stated
properties of these components. -/

/- Embedding of the avatar-source extraction module (avatarSources, src/unnamed/part_003).
JavaScript payload values are modelled by the inductive type Jx; JS strings are Lean
strings, JS string primitives are modelled on the underlying character lists. -/

inductive Jx where
  | jnull : Jx
  | jundef : Jx
  | jbool : Bool → Jx
  | jnum : Int → Jx
  | jstr : String → Jx
  | jobj : List (String × Jx) → Jx

/-- JS truthiness test for the `!payload` guard: null, undefined, false, 0 and the
empty string are falsy; objects are always truthy. -/
def Jx.isFalsy : Jx → Bool
  | .jnull => true
  | .jundef => true
  | .jbool b => !b
  | .jnum n => n == 0
  | .jstr s => s.isEmpty
  | .jobj _ => false

def MODEL_SOURCE_KEYS : List String :=
  ["glbUrl", "glb", "blobUrl", "modelUrl", "model", "url", "signedUrl",
   "signed_url", "href", "value", "src", "source", "dataUrl", "data_url"]

def MAX_NESTING_DEPTH : Nat := 4

def isJsSpace (c : Char) : Bool := c.isWhitespace

/-- Model of JS String.trim. -/
def jsTrim (s : String) : String :=
  String.mk (((s.data.dropWhile isJsSpace).reverse.dropWhile isJsSpace).reverse)

/-- Model of JS String.startsWith. -/
def jsStartsWith (s p : String) : Bool := decide (p.data <+: s.data)

/-- Model of JS String.toLowerCase, used for the case-insensitive image-data test. -/
def jsToLower (s : String) : String := String.mk (s.data.map Char.toLower)

/-- The character class of the regex `[A-Za-z0-9+/=]`. -/
def isBase64Char (c : Char) : Bool :=
  (('A' ≤ c && c ≤ 'Z') || ('a' ≤ c && c ≤ 'z') || ('0' ≤ c && c ≤ '9') ||
    c == '+' || c == '/' || c == '=')

/-- Full-string match of the anchored regex BASE64_MODEL_PATTERN. -/
def BASE64_MODEL_PATTERN (s : String) : Bool :=
  !s.data.isEmpty && s.data.all isBase64Char

/-- Model of JS String.includes for a single character. -/
def jsIncludesChar (s : String) (c : Char) : Bool := s.data.any (fun d => d == c)

def normalizeModelCandidate (value : String) : Option String :=
  if (jsTrim value).isEmpty then none
  else if jsStartsWith (jsTrim value) "http://" || jsStartsWith (jsTrim value) "https://" then
    some (jsTrim value)
  else if jsStartsWith (jsTrim value) "data:" then
    if jsStartsWith (jsToLower (jsTrim value)) "data:image/" then none
    else some (jsTrim value)
  else if 100 < (jsTrim value).data.length ∧ BASE64_MODEL_PATTERN (jsTrim value)
      ∧ jsIncludesChar (jsTrim value) ' ' = false then
    some ("data:model/gltf-binary;base64," ++ jsTrim value)
  else none

/-- Lookup of `record[key]` for a key known via `key in record`. -/
def jxLookup (key : String) : List (String × Jx) → Option Jx
  | [] => none
  | (k, v) :: rest => if k = key then some v else jxLookup key rest

/-- Recursion core of extractAvatarSource. The source recursion is cut off once
`depth > MAX_NESTING_DEPTH`; here the remaining budget is the explicit fuel
`MAX_NESTING_DEPTH + 1 - depth`, which decreases by one on every nested call
exactly as `depth` increases by one. -/
def extractGo : Nat → Jx → Option String
  | 0, _ => none
  | fuel + 1, p =>
    if p.isFalsy then none
    else
      match p with
      | .jstr s => normalizeModelCandidate s
      | .jobj fields =>
        MODEL_SOURCE_KEYS.findSome? (fun key =>
          match jxLookup key fields with
          | none => none
          | some v => extractGo fuel v)
      | _ => none

def extractAvatarSource (payload : Jx) (depth : Nat := 0) : Option String :=
  extractGo (MAX_NESTING_DEPTH + 1 - depth) payload

/-- A usable extraction result: an http(s) or data URL that is not an image data URL. -/
def GoodSource (s : String) : Prop :=
  (jsStartsWith s "http://" = true ∨ jsStartsWith s "https://" = true ∨
    jsStartsWith s "data:" = true) ∧
  jsStartsWith (jsToLower s) "data:image/" = false

/- Embedding of the Rating screen turn-order derivation (RatingScreen, current version).
Player rows keep the fields the sort and quorum computations read; created_at holds the
Date.parse result in milliseconds, none when the column is null. -/

structure Player where
  id : String
  user_id : String
  created_at : Option Nat
  score : Int
deriving Repr, DecidableEq

/-- The sort key of the comparator: Date.parse(created_at) with 0 for a null column. -/
def createdKey (p : Player) : Nat := p.created_at.getD 0

/-- One step of the stable sort: the new element is placed after every element whose
key is less than or equal to its own, as a stable comparator sort on created_at does. -/
def insertByCreated (p : Player) : List Player → List Player
  | [] => [p]
  | q :: qs => if createdKey q ≤ createdKey p then q :: insertByCreated p qs else p :: q :: qs

/-- The sortedPlayers memo: a stable sort of the players array by the comparator
(leftCreated - rightCreated), i.e. by created_at ascending with ties kept in the
input order. -/
def sortedPlayers (players : List Player) : List Player :=
  players.foldl (fun acc p => insertByCreated p acc) []

/-- Codepoint-lexicographic string comparison, the tie-break order named by the spec. -/
def strLexLe : List Char → List Char → Bool
  | [], _ => true
  | _ :: _, [] => false
  | a :: as, b :: bs =>
    if a.val < b.val then true else if b.val < a.val then false else strLexLe as bs

/-- Modelled from the spec: insertion step for the order (created_at ascending, id
ascending as tie-break). This definition follows the words of the spec, not the code,
and exists only to be compared with sortedPlayers. -/
def specInsert (p : Player) : List Player → List Player
  | [] => [p]
  | q :: qs =>
    if createdKey q < createdKey p ∨
        (createdKey q = createdKey p ∧ strLexLe q.id.data p.id.data = true) then
      q :: specInsert p qs
    else p :: q :: qs

/-- Modelled from the spec: the turn order obtained by sorting on created_at ascending
with Player id string comparison as tie-break. -/
def specTurnOrder (players : List Player) : List Player :=
  players.foldl (fun acc p => specInsert p acc) []

def playerA : Player := { id := "a", user_id := "user-a", created_at := some 5, score := 0 }

def playerB : Player := { id := "b", user_id := "user-b", created_at := some 5, score := 0 }

def playerC : Player := { id := "c", user_id := "user-c", created_at := some 9, score := 0 }

/-- The expectedVotes memo of the current Rating screen: Math.max(sortedPlayers.length - 1, 0). -/
def expectedVotes (players : List Player) : Int :=
  max (((sortedPlayers players).length : Int) - 1) 0

/- Embedding of the Rating screen round-coordination handlers (current RatingScreen
version, the one with the advancingRef and finishedRef guards). A ClientState is the
relevant slice of one client during one event-loop tick: snapCurrentPlayerId is the
currentPlayerId value captured by this tick's render closures (all handlers read it),
localCurrentPlayerId is the pending React state written by setCurrentPlayerLocal,
the two Bool guards are the mutable refs (shared and immediately visible within the
tick), and the remaining fields log the side effects the claims talk about.
Store writes that the code awaits are appended to settledWrites; the fire-and-forget
current_player update of advanceToNextPlayer is appended to pendingWrites, because it
is still in flight when the synchronous part of the handler ends. Store operations are
modelled as succeeding; in the source a failure only adds a console.warn. The current
Rating screen imports no Alert, so nothing ever appends to alerts; console.warn calls
are counted in warnings. -/

inductive Phase where
  | lobby | customize | rating | scoreboard
deriving Repr, DecidableEq

inductive GameWrite where
  | setCurrentPlayer (v : Option String)
  | setPhaseAndPlayer (phase : Phase) (current : Option String)
deriving Repr, DecidableEq

def PRESENTATION_DURATION_SECONDS : Nat := 20

structure ClientState where
  players : List Player
  snapCurrentPlayerId : Option String
  localCurrentPlayerId : Option String
  advancing : Bool
  finished : Bool
  hasVoted : Bool
  selectedStars : Nat
  countdown : Nat
  countdownRunning : Bool
  votePollRunning : Bool
  isHost : Bool
  currentTargetVoteCount : Int
  pendingWrites : List GameWrite
  settledWrites : List GameWrite
  scoringRuns : Nat
  broadcasts : Nat
  shownScoreboard : Bool
  alerts : List String
  warnings : Nat
  refreshRequested : Bool
deriving Repr, DecidableEq

def sortedOf (s : ClientState) : List Player := sortedPlayers s.players

def expectedVotesOf (s : ClientState) : Int := expectedVotes s.players

/-- JS Array.findIndex: the index of the first match, -1 when there is none. -/
def jsFindIndex (pred : Player → Bool) (l : List Player) : Int :=
  match l.findIdx? pred with
  | some i => (i : Int)
  | none => -1

def currentIndexOf (s : ClientState) : Int :=
  jsFindIndex (fun p => some p.id == s.snapCurrentPlayerId) (sortedOf s)

def isLastPlayer (s : ClientState) : Prop :=
  0 ≤ currentIndexOf s ∧ currentIndexOf s = ((sortedOf s).length : Int) - 1

instance (s : ClientState) : Decidable (isLastPlayer s) := by
  unfold isLastPlayer; infer_instance

def currentPlayerOf (s : ClientState) : Option Player :=
  (sortedOf s).find? (fun p => some p.id == s.snapCurrentPlayerId)

def defaultPlayer : Player := { id := "", user_id := "", created_at := none, score := 0 }

def stopTimers (s : ClientState) : ClientState :=
  { s with countdownRunning := false, votePollRunning := false }

def handleFinishRound (s : ClientState) : ClientState :=
  if s.finished then s
  else
    let s1 := stopTimers { s with finished := true }
    { s1 with
      scoringRuns := s1.scoringRuns + 1,
      settledWrites := s1.settledWrites ++ [GameWrite.setPhaseAndPlayer Phase.scoreboard none],
      advancing := false,
      shownScoreboard := true,
      broadcasts := s1.broadcasts + (if s1.isHost then 1 else 0) }

def setCurrentPlayerLocal (playerId : Option String) (s : ClientState) : ClientState :=
  { s with localCurrentPlayerId := playerId }

def resetCountdown (s : ClientState) : ClientState :=
  { s with countdown := PRESENTATION_DURATION_SECONDS, countdownRunning := true }

def advanceToNextPlayer (s : ClientState) : ClientState :=
  if s.advancing then s
  else
    let s1 : ClientState := { s with advancing := true }
    let currentIndex := currentIndexOf s1
    let nextIndex : Int := if 0 ≤ currentIndex then currentIndex + 1 else 0
    if ((sortedOf s1).length : Int) ≤ nextIndex then handleFinishRound s1
    else
      let nextPlayer := (sortedOf s1).getD nextIndex.toNat defaultPlayer
      let s2 := resetCountdown (setCurrentPlayerLocal (some nextPlayer.id) s1)
      let s3 : ClientState :=
        { s2 with pendingWrites :=
            s2.pendingWrites ++ [GameWrite.setCurrentPlayer (some nextPlayer.id)] }
      { s3 with advancing := false }

def refreshVoteCountAndMaybeAdvance (total : Int) (s : ClientState) : ClientState :=
  if s.snapCurrentPlayerId = none ∨ s.finished then s
  else
    let s1 : ClientState := { s with currentTargetVoteCount := total }
    if expectedVotesOf s1 ≤ total ∧ s1.advancing = false ∧ s1.finished = false then
      if isLastPlayer s1 then handleFinishRound s1 else advanceToNextPlayer s1
    else s1

def countdownHitZero (s : ClientState) : ClientState :=
  if s.countdownRunning = false then s
  else
    let s1 : ClientState := { s with countdownRunning := false }
    let s2 :=
      if s1.snapCurrentPlayerId ≠ none ∧ s1.advancing = false ∧ s1.finished = false then
        if isLastPlayer s1 then handleFinishRound s1 else advanceToNextPlayer s1
      else s1
    { s2 with countdown := if s2.countdownRunning then s2.countdown else 0 }

def soloFastPath (s : ClientState) : ClientState :=
  if expectedVotesOf s = 0 ∧ s.advancing = false then advanceToNextPlayer s else s

def submitCurrentVote (ok : Bool) (s : ClientState) : ClientState :=
  if (currentPlayerOf s).isNone ∨ s.selectedStars = 0 ∨ s.finished = true then s
  else if ok then { s with hasVoted := true, refreshRequested := true }
  else { s with hasVoted := false, warnings := s.warnings + 1 }

def baseState : ClientState :=
  { players := [playerA, playerC],
    snapCurrentPlayerId := some "a",
    localCurrentPlayerId := some "a",
    advancing := false, finished := false,
    hasVoted := false, selectedStars := 0,
    countdown := 20, countdownRunning := true, votePollRunning := true,
    isHost := true, currentTargetVoteCount := 0,
    pendingWrites := [], settledWrites := [], scoringRuns := 0, broadcasts := 0,
    shownScoreboard := false, alerts := [], warnings := 0, refreshRequested := false }

def voteState : ClientState := { baseState with selectedStars := 3 }

def lastState : ClientState :=
  { baseState with snapCurrentPlayerId := some "c", localCurrentPlayerId := some "c" }

def soloState : ClientState :=
  { baseState with players := [playerA] }

/- Embedding of the peer-session bookkeeping of the useLiveStream hook. A
PeerConnectionManager instance is identified by its creation order (nextId); openPeers
lists the managers that have been constructed and whose close() has not been called;
installedPeer is peerRef.current, peerRole is peerRoleRef.current and target is
targetRef.current. isPublishingSnap and hasLocalStream are the closure value of the
isPublishing state and the localStreamRef content read by the offer handler. -/

inductive PeerRole where
  | host | viewer
deriving Repr, DecidableEq

structure LiveState where
  selfId : String
  isPublishingSnap : Bool
  hasLocalStream : Bool
  installedPeer : Option Nat
  peerRole : Option PeerRole
  target : Option String
  openPeers : List Nat
  nextId : Nat
deriving Repr, DecidableEq

/-- The cleanupPeer callback: closes the installed manager (only that one) and clears
the refs. -/
def cleanupPeer (s : LiveState) : LiveState :=
  { s with
    openPeers := match s.installedPeer with
      | some m => s.openPeers.erase m
      | none => s.openPeers,
    installedPeer := none, peerRole := none, target := none }

/-- The signaling:offer handler while publishing: after the self, target and publishing
guards it constructs a fresh host-role manager, attaches the local track and installs
it over peerRef; the previously installed manager is not closed. -/
def handleSignalingOffer (fromUserId : String) (targetUserId : Option String)
    (s : LiveState) : LiveState :=
  if fromUserId = s.selfId then s
  else if targetUserId.isSome = true ∧ targetUserId ≠ some s.selfId then s
  else if s.isPublishingSnap = false ∨ s.hasLocalStream = false then s
  else
    { s with openPeers := s.openPeers ++ [s.nextId],
             installedPeer := some s.nextId,
             peerRole := some PeerRole.host,
             target := some fromUserId,
             nextId := s.nextId + 1 }

/-- requestViewerConnection: constructs a fresh viewer-role manager for the stream
owner and installs it over peerRef; the previously installed manager is not closed. -/
def requestViewerConnection (ownerId : String) (s : LiveState) : LiveState :=
  { s with openPeers := s.openPeers ++ [s.nextId],
           installedPeer := some s.nextId,
           peerRole := some PeerRole.viewer,
           target := some ownerId,
           nextId := s.nextId + 1 }

def liveBase : LiveState :=
  { selfId := "me", isPublishingSnap := true, hasLocalStream := true,
    installedPeer := some 0, peerRole := some PeerRole.host, target := some "v1",
    openPeers := [0], nextId := 1 }

theorem jsStartsWith_iff (s p : String) : jsStartsWith s p = true ↔ p.data <+: s.data := by
  simp [jsStartsWith]

theorem jsStartsWith_lower (s p : String) (h : jsStartsWith s p = true) :
    jsStartsWith (jsToLower s) (jsToLower p) = true := by
  rw [jsStartsWith_iff] at h ⊢
  exact h.map Char.toLower

theorem not_image_of_http (s : String) (h : jsStartsWith s "http://" = true) :
    jsStartsWith (jsToLower s) "data:image/" = false := by
  by_contra hc
  rw [Bool.not_eq_false, jsStartsWith_iff] at hc
  have h2 := jsStartsWith_lower s "http://" h
  have h3 : (jsToLower "http://").data <+: (jsToLower s).data := (jsStartsWith_iff _ _).mp h2
  have h4 : (jsToLower "http://").data <+: ("data:image/").data :=
    List.prefix_of_prefix_length_le h3 hc (by decide)
  revert h4
  decide

theorem not_image_of_https (s : String) (h : jsStartsWith s "https://" = true) :
    jsStartsWith (jsToLower s) "data:image/" = false := by
  by_contra hc
  rw [Bool.not_eq_false, jsStartsWith_iff] at hc
  have h2 := jsStartsWith_lower s "https://" h
  have h3 : (jsToLower "https://").data <+: (jsToLower s).data := (jsStartsWith_iff _ _).mp h2
  have h4 : (jsToLower "https://").data <+: ("data:image/").data :=
    List.prefix_of_prefix_length_le h3 hc (by decide)
  revert h4
  decide

theorem not_image_of_wrap (s : String) :
    jsStartsWith (jsToLower ("data:model/gltf-binary;base64," ++ s)) "data:image/" = false := by
  by_contra hc
  rw [Bool.not_eq_false, jsStartsWith_iff] at hc
  have hm : ("data:model/").data <+: (jsToLower ("data:model/gltf-binary;base64," ++ s)).data := by
    rw [jsToLower, String.data_append, List.map_append]
    have hp : ("data:model/").data <+: ("data:model/gltf-binary;base64,").data.map Char.toLower := by
      decide
    exact hp.trans (List.prefix_append _ _)
  have h4 : ("data:image/").data <+: ("data:model/").data :=
    List.prefix_of_prefix_length_le hc hm (by decide)
  have h5 : ("data:image/").data = ("data:model/").data := h4.eq_of_length (by decide)
  revert h5
  decide

theorem wrap_starts_data (s : String) :
    jsStartsWith ("data:model/gltf-binary;base64," ++ s) "data:" = true := by
  rw [jsStartsWith_iff, String.data_append]
  exact (show ("data:").data <+: ("data:model/gltf-binary;base64,").data by decide).trans
    (List.prefix_append _ _)

theorem normalizeModelCandidate_good (value s : String)
    (h : normalizeModelCandidate value = some s) : GoodSource s := by
  unfold normalizeModelCandidate at h
  split_ifs at h with h1 h2 h3 h4 h5
  · rcases Option.some.inj h with rfl
    rcases Bool.or_eq_true _ _ |>.mp h2 with hh | hh
    · exact ⟨Or.inl hh, not_image_of_http _ hh⟩
    · exact ⟨Or.inr (Or.inl hh), not_image_of_https _ hh⟩
  · rcases Option.some.inj h with rfl
    exact ⟨Or.inr (Or.inr h3), Bool.not_eq_true _ |>.mp h4⟩
  · rcases Option.some.inj h with rfl
    exact ⟨Or.inr (Or.inr (wrap_starts_data _)), not_image_of_wrap _⟩

theorem findSome?_eq_some_mem {α β : Type} (f : α → Option β) :
    ∀ (l : List α) (b : β), l.findSome? f = some b → ∃ a, a ∈ l ∧ f a = some b := by
  intro l
  induction l with
  | nil => intro b h; simp [List.findSome?] at h
  | cons x xs ih =>
    intro b h
    rw [List.findSome?_cons] at h
    cases hx : f x with
    | some c =>
      rw [hx] at h
      exact ⟨x, List.mem_cons_self x xs, hx.trans h⟩
    | none =>
      rw [hx] at h
      obtain ⟨a, ha, hfa⟩ := ih b h
      exact ⟨a, List.mem_cons_of_mem x ha, hfa⟩

theorem extractGo_good : ∀ (fuel : Nat) (p : Jx) (s : String),
    extractGo fuel p = some s → GoodSource s := by
  intro fuel
  induction fuel with
  | zero => intro p s h; simp [extractGo] at h
  | succ n ih =>
    intro p s h
    unfold extractGo at h
    split_ifs at h with hf
    cases p with
    | jstr str => exact normalizeModelCandidate_good _ _ h
    | jobj fields =>
      obtain ⟨key, _, hkey⟩ := findSome?_eq_some_mem _ _ _ h
      cases hv : jxLookup key fields with
      | none => rw [hv] at hkey; exact absurd hkey (by simp)
      | some v => rw [hv] at hkey; exact ih v s hkey
    | jnull => exact absurd h (by simp)
    | jundef => exact absurd h (by simp)
    | jbool b => exact absurd h (by simp)
    | jnum n => exact absurd h (by simp)

theorem all_base64_no_pre (s pre : String) (hall : s.data.all isBase64Char = true)
    (hbad : pre.data.all isBase64Char = false) : jsStartsWith s pre = false := by
  by_contra hc
  rw [Bool.not_eq_false, jsStartsWith_iff] at hc
  obtain ⟨t, ht⟩ := hc
  rw [← ht, List.all_append, Bool.and_eq_true] at hall
  rw [hall.1] at hbad
  exact absurd hbad (by decide)

theorem extractGo_succ_jstr (n : Nat) (s : String) (hne : s.isEmpty = false) :
    extractGo (n + 1) (Jx.jstr s) = normalizeModelCandidate s := by
  unfold extractGo
  simp [Jx.isFalsy, hne]

/-- Claim C10: extractAvatarSource terminates with the recursion cut off above
MAX_NESTING_DEPTH = 4 (the remaining fuel is exhausted exactly when depth exceeds the
cutoff); every non-null result starts with http://, https:// or data: and is never a
data:image/... URL; and a bare base64 payload longer than 100 characters (hence with
no spaces) is returned wrapped as a data:model/gltf-binary;base64, URL. -/
theorem extractAvatarSource_c10 :
    (∀ (p : Jx) (d : Nat), MAX_NESTING_DEPTH < d → extractAvatarSource p d = none) ∧
    (∀ (p : Jx) (d : Nat) (s : String), extractAvatarSource p d = some s → GoodSource s) ∧
    (∀ s : String, jsTrim s = s → 100 < s.data.length → s.data.all isBase64Char = true →
      extractAvatarSource (Jx.jstr s) = some ("data:model/gltf-binary;base64," ++ s)) := by
  refine ⟨?_, ?_, ?_⟩
  · intro p d hd
    have hz : MAX_NESTING_DEPTH + 1 - d = 0 := Nat.sub_eq_zero_of_le hd
    rw [extractAvatarSource, hz]
    rfl
  · intro p d s h
    exact extractGo_good _ _ _ h
  · intro s htrim hlen hall
    have hne : s.isEmpty = false := by
      by_contra hc
      rw [Bool.not_eq_false] at hc
      have he := (String.isEmpty_iff s).mp hc
      rw [he] at hlen
      exact absurd hlen (by decide)
    have hstep : extractAvatarSource (Jx.jstr s) = extractGo (4 + 1) (Jx.jstr s) := rfl
    rw [hstep, extractGo_succ_jstr 4 s hne]
    unfold normalizeModelCandidate
    rw [htrim]
    have hhttp : jsStartsWith s "http://" = false := all_base64_no_pre s _ hall (by decide)
    have hhttps : jsStartsWith s "https://" = false := all_base64_no_pre s _ hall (by decide)
    have hdata : jsStartsWith s "data:" = false := all_base64_no_pre s _ hall (by decide)
    have hsp : jsIncludesChar s ' ' = false := by
      by_contra hc
      rw [Bool.not_eq_false, jsIncludesChar, List.any_eq_true] at hc
      obtain ⟨c, hcm, hcq⟩ := hc
      have := List.all_eq_true.mp hall c hcm
      rw [beq_iff_eq] at hcq
      rw [hcq] at this
      exact absurd this (by decide)
    have hpat : BASE64_MODEL_PATTERN s = true := by
      rw [BASE64_MODEL_PATTERN, Bool.and_eq_true]
      refine ⟨?_, hall⟩
      rw [Bool.not_eq_true']
      cases hd : s.data with
      | nil => rw [hd] at hlen; exact absurd hlen (by decide)
      | cons a t => rfl
    rw [hne, hhttp, hhttps, hdata]
    simp only [Bool.false_or, if_neg Bool.false_ne_true]
    rw [if_pos ⟨hlen, hpat, hsp⟩]

/-- Witness for C10: each part applied at a concrete input. A null payload at depth 5 is
cut off; a plain https URL is returned and is a good source; a 101-character base64
payload is wrapped into a model data URL. -/
theorem extractAvatarSource_c10_witness :
    extractAvatarSource Jx.jnull 5 = none ∧
    GoodSource "https://cdn.example.com/foo.glb" ∧
    extractAvatarSource (Jx.jstr (String.mk (List.replicate 101 'q'))) =
      some ("data:model/gltf-binary;base64," ++ String.mk (List.replicate 101 'q')) :=
  ⟨extractAvatarSource_c10.1 Jx.jnull 5 (by decide),
   extractAvatarSource_c10.2.1 (Jx.jstr "https://cdn.example.com/foo.glb") 0
     "https://cdn.example.com/foo.glb" (by decide),
   extractAvatarSource_c10.2.2 (String.mk (List.replicate 101 'q')) (by decide) (by decide)
     (by decide)⟩

theorem insertByCreated_perm (p : Player) (l : List Player) :
    (insertByCreated p l).Perm (p :: l) := by
  induction l with
  | nil => rfl
  | cons q qs ih =>
    rw [insertByCreated]
    split_ifs with h
    · exact ((ih.cons q).trans (List.Perm.swap p q qs)).symm.symm
    · exact List.Perm.refl _

theorem sortedPlayers_perm_aux (l acc : List Player) :
    (l.foldl (fun a p => insertByCreated p a) acc).Perm (acc ++ l) := by
  induction l generalizing acc with
  | nil => simp
  | cons p rest ih =>
    rw [List.foldl_cons]
    refine (ih (insertByCreated p acc)).trans ?_
    refine ((insertByCreated_perm p acc).append_right rest).trans ?_
    have : (p :: acc) ++ rest = p :: (acc ++ rest) := rfl
    rw [this]
    exact (List.perm_middle).symm

theorem sortedPlayers_perm (l : List Player) : (sortedPlayers l).Perm l := by
  have := sortedPlayers_perm_aux l []
  simpa [sortedPlayers] using this

theorem mem_insertByCreated (p x : Player) (l : List Player)
    (hx : x ∈ insertByCreated p l) : x = p ∨ x ∈ l := by
  have := (insertByCreated_perm p l).mem_iff.mp hx
  simpa using this

theorem insertByCreated_sorted (p : Player) (l : List Player)
    (hl : l.Sorted (fun a b => createdKey a ≤ createdKey b)) :
    (insertByCreated p l).Sorted (fun a b => createdKey a ≤ createdKey b) := by
  induction l with
  | nil => simp [insertByCreated]
  | cons q qs ih =>
    rw [List.sorted_cons] at hl
    rw [insertByCreated]
    split_ifs with h
    · rw [List.sorted_cons]
      refine ⟨?_, ih hl.2⟩
      intro b hb
      rcases mem_insertByCreated p b qs hb with rfl | hbq
      · exact h
      · exact hl.1 b hbq
    · rw [List.sorted_cons]
      refine ⟨?_, List.sorted_cons.mpr hl⟩
      intro b hb
      have hple : createdKey p ≤ createdKey q := Nat.le_of_lt (Nat.lt_of_not_le h)
      rcases List.mem_cons.mp hb with rfl | hbq
      · exact hple
      · exact Nat.le_trans hple (hl.1 b hbq)

theorem sortedPlayers_sorted_aux (l acc : List Player)
    (hacc : acc.Sorted (fun a b => createdKey a ≤ createdKey b)) :
    (l.foldl (fun a p => insertByCreated p a) acc).Sorted
      (fun a b => createdKey a ≤ createdKey b) := by
  induction l generalizing acc with
  | nil => simpa using hacc
  | cons p rest ih =>
    rw [List.foldl_cons]
    exact ih _ (insertByCreated_sorted p acc hacc)

theorem sortedPlayers_sorted (l : List Player) :
    (sortedPlayers l).Sorted (fun a b => createdKey a ≤ createdKey b) :=
  sortedPlayers_sorted_aux l [] (by simp)

theorem sortedPlayers_deterministic (l₁ l₂ : List Player) (hperm : l₁.Perm l₂)
    (hdist : l₁.Pairwise (fun a b => createdKey a ≠ createdKey b)) :
    sortedPlayers l₁ = sortedPlayers l₂ := by
  have hp1 := sortedPlayers_perm l₁
  have hp2 := sortedPlayers_perm l₂
  have hp12 : (sortedPlayers l₁).Perm (sortedPlayers l₂) :=
    (hp1.trans hperm).trans hp2.symm
  have hd1 : (sortedPlayers l₁).Pairwise (fun a b => createdKey a ≠ createdKey b) :=
    (hp1.pairwise_iff (fun h => Ne.symm h)).mpr hdist
  have hd2 : (sortedPlayers l₂).Pairwise (fun a b => createdKey a ≠ createdKey b) :=
    (hp2.pairwise_iff (fun h => Ne.symm h)).mpr
      ((hperm.pairwise_iff (fun h => Ne.symm h)).mp hdist)
  have hs1 : (sortedPlayers l₁).Sorted (fun a b => createdKey a < createdKey b) := by
    have := ((sortedPlayers_sorted l₁).and hd1)
    exact this.imp (fun h => Nat.lt_of_le_of_ne h.1 h.2)
  have hs2 : (sortedPlayers l₂).Sorted (fun a b => createdKey a < createdKey b) := by
    have := ((sortedPlayers_sorted l₂).and hd2)
    exact this.imp (fun h => Nat.lt_of_le_of_ne h.1 h.2)
  haveI : IsAntisymm Player (fun a b => createdKey a < createdKey b) :=
    ⟨fun a b h1 h2 => absurd h1 (Nat.lt_asymm h2)⟩
  exact List.eq_of_perm_of_sorted hp12 hs1 hs2

/-- Counterexample to claim C3: with two players sharing created_at = 5, listed as
[playerB, playerA], the code keeps the input order (stable sort with no tie-break),
so the derived order differs from the spec order (created_at, id); moreover the same
Player set observed in the two possible array orders yields two different presenter
orders. -/
theorem sortedPlayers_c3_counterexample :
    sortedPlayers [playerB, playerA] ≠ specTurnOrder [playerB, playerA] ∧
    ([playerB, playerA]).Perm [playerA, playerB] ∧
    sortedPlayers [playerB, playerA] ≠ sortedPlayers [playerA, playerB] := by
  refine ⟨?_, ?_, ?_⟩ <;> decide

/-- Amended claim C3: sortedPlayers sorts by created_at ascending only, keeping ties in
the input array order (no id tie-break); it is a permutation of the Player set sorted by
the created_at key, and two clients observing the same Player set agree whenever no two
players share a created_at value. -/
theorem sortedPlayers_c3_amended :
    (∀ l : List Player, (sortedPlayers l).Perm l ∧
      (sortedPlayers l).Sorted (fun a b => createdKey a ≤ createdKey b)) ∧
    (∀ l₁ l₂ : List Player, l₁.Perm l₂ →
      l₁.Pairwise (fun a b => createdKey a ≠ createdKey b) →
      sortedPlayers l₁ = sortedPlayers l₂) :=
  ⟨fun l => ⟨sortedPlayers_perm l, sortedPlayers_sorted l⟩, sortedPlayers_deterministic⟩

/-- Witness for the amended C3: two clients observing the same two-player set with
distinct created_at values in opposite array orders derive the same presenter order. -/
theorem sortedPlayers_c3_amended_witness :
    sortedPlayers [playerA, playerC] = sortedPlayers [playerC, playerA] :=
  sortedPlayers_c3_amended.2 [playerA, playerC] [playerC, playerA] (by decide) (by decide)

/-- Claim C4: for a game with N players the vote quorum is max(N - 1, 0). -/
theorem expectedVotes_c4 (players : List Player) :
    expectedVotes players = max ((players.length : Int) - 1) 0 := by
  rw [expectedVotes, (sortedPlayers_perm players).length_eq]

theorem advanceToNextPlayer_noop (s : ClientState) (h : s.advancing = true) :
    advanceToNextPlayer s = s := by
  unfold advanceToNextPlayer
  rw [h]
  rfl

theorem handleFinishRound_noop (s : ClientState) (h : s.finished = true) :
    handleFinishRound s = s := by
  unfold handleFinishRound
  rw [h]
  rfl

theorem handleFinishRound_run (s : ClientState) (h : s.finished = false) :
    handleFinishRound s =
      { s with finished := true, countdownRunning := false, votePollRunning := false,
               scoringRuns := s.scoringRuns + 1,
               settledWrites := s.settledWrites ++
                 [GameWrite.setPhaseAndPlayer Phase.scoreboard none],
               advancing := false,
               shownScoreboard := true,
               broadcasts := s.broadcasts + (if s.isHost then 1 else 0) } := by
  unfold handleFinishRound stopTimers
  rw [h]
  rfl

theorem advanceToNextPlayer_step (s : ClientState) (i : Nat)
    (hadv : s.advancing = false)
    (hidx : currentIndexOf s = (i : Int))
    (hlt : (i : Int) + 1 < ((sortedOf s).length : Int)) :
    advanceToNextPlayer s =
      { s with localCurrentPlayerId := some (((sortedOf s).getD (i + 1) defaultPlayer).id),
               countdown := PRESENTATION_DURATION_SECONDS,
               countdownRunning := true,
               pendingWrites := s.pendingWrites ++
                 [GameWrite.setCurrentPlayer
                   (some (((sortedOf s).getD (i + 1) defaultPlayer).id))],
               advancing := false } := by
  unfold advanceToNextPlayer
  rw [hadv]
  have hidx1 : currentIndexOf { s with advancing := true } = (i : Int) := hidx
  have hsort1 : sortedOf { s with advancing := true } = sortedOf s := rfl
  simp only [Bool.false_eq_true, if_false, hidx1, hsort1]
  have h0 : (0 : Int) ≤ (i : Int) := Int.natCast_nonneg i
  rw [if_pos h0]
  rw [if_neg (not_le.mpr hlt)]
  have htn : ((i : Int) + 1).toNat = i + 1 := by
    rw [show ((i : Int) + 1) = ((i + 1 : Nat) : Int) by push_cast; ring]
    exact Int.toNat_natCast (i + 1)
  rw [htn]
  rfl

theorem countdownHitZero_advance (s : ClientState) (i : Nat) (pid : String)
    (hsnap : s.snapCurrentPlayerId = some pid)
    (hadv : s.advancing = false) (hfin : s.finished = false)
    (hrun : s.countdownRunning = true)
    (hidx : currentIndexOf s = (i : Int))
    (hlt : (i : Int) + 1 < ((sortedOf s).length : Int)) :
    countdownHitZero s =
      { s with localCurrentPlayerId := some (((sortedOf s).getD (i + 1) defaultPlayer).id),
               countdown := PRESENTATION_DURATION_SECONDS,
               countdownRunning := true,
               pendingWrites := s.pendingWrites ++
                 [GameWrite.setCurrentPlayer
                   (some (((sortedOf s).getD (i + 1) defaultPlayer).id))],
               advancing := false } := by
  have hnl : ¬ isLastPlayer ({ s with countdownRunning := false } : ClientState) := by
    unfold isLastPlayer
    rw [show currentIndexOf { s with countdownRunning := false } = (i : Int) from hidx]
    rw [show sortedOf { s with countdownRunning := false } = sortedOf s from rfl]
    intro hcon
    omega
  unfold countdownHitZero
  rw [hrun, if_neg (show ¬ (true = false) from by decide)]
  simp only []
  rw [if_pos (show s.snapCurrentPlayerId ≠ none ∧ s.advancing = false ∧ s.finished = false from
    ⟨by simp [hsnap], hadv, hfin⟩)]
  rw [if_neg hnl]
  rw [advanceToNextPlayer_step ({ s with countdownRunning := false } : ClientState) i hadv hidx hlt]
  rfl

theorem refresh_advance (s : ClientState) (total : Int) (i : Nat) (pid : String)
    (hsnap : s.snapCurrentPlayerId = some pid)
    (hadv : s.advancing = false) (hfin : s.finished = false)
    (hidx : currentIndexOf s = (i : Int))
    (hlt : (i : Int) + 1 < ((sortedOf s).length : Int))
    (hq : expectedVotesOf s ≤ total) :
    refreshVoteCountAndMaybeAdvance total s =
      { s with currentTargetVoteCount := total,
               localCurrentPlayerId := some (((sortedOf s).getD (i + 1) defaultPlayer).id),
               countdown := PRESENTATION_DURATION_SECONDS,
               countdownRunning := true,
               pendingWrites := s.pendingWrites ++
                 [GameWrite.setCurrentPlayer
                   (some (((sortedOf s).getD (i + 1) defaultPlayer).id))],
               advancing := false } := by
  have hnl : ¬ isLastPlayer ({ s with currentTargetVoteCount := total } : ClientState) := by
    unfold isLastPlayer
    rw [show currentIndexOf { s with currentTargetVoteCount := total } = (i : Int) from hidx]
    rw [show sortedOf { s with currentTargetVoteCount := total } = sortedOf s from rfl]
    intro hcon
    omega
  unfold refreshVoteCountAndMaybeAdvance
  rw [if_neg (show ¬ (s.snapCurrentPlayerId = none ∨ s.finished = true) from by
    simp [hsnap, hfin])]
  rw [if_pos (show expectedVotesOf ({ s with currentTargetVoteCount := total } : ClientState) ≤ total ∧
      ({ s with currentTargetVoteCount := total } : ClientState).advancing = false ∧
      ({ s with currentTargetVoteCount := total } : ClientState).finished = false from
    ⟨hq, hadv, hfin⟩)]
  rw [if_neg hnl]
  rw [advanceToNextPlayer_step ({ s with currentTargetVoteCount := total } : ClientState) i hadv hidx hlt]
  rfl

theorem refresh_finish (s : ClientState) (total : Int) (pid : String)
    (hsnap : s.snapCurrentPlayerId = some pid)
    (hadv : s.advancing = false) (hfin : s.finished = false)
    (hlast : isLastPlayer s)
    (hq : expectedVotesOf s ≤ total) :
    refreshVoteCountAndMaybeAdvance total s =
      { s with currentTargetVoteCount := total,
               finished := true, countdownRunning := false, votePollRunning := false,
               scoringRuns := s.scoringRuns + 1,
               settledWrites := s.settledWrites ++
                 [GameWrite.setPhaseAndPlayer Phase.scoreboard none],
               advancing := false, shownScoreboard := true,
               broadcasts := s.broadcasts + (if s.isHost then 1 else 0) } := by
  unfold refreshVoteCountAndMaybeAdvance
  rw [if_neg (show ¬ (s.snapCurrentPlayerId = none ∨ s.finished = true) from by
    simp [hsnap, hfin])]
  rw [if_pos (show expectedVotesOf ({ s with currentTargetVoteCount := total } : ClientState) ≤ total ∧
      ({ s with currentTargetVoteCount := total } : ClientState).advancing = false ∧
      ({ s with currentTargetVoteCount := total } : ClientState).finished = false from
    ⟨hq, hadv, hfin⟩)]
  rw [if_pos (show isLastPlayer ({ s with currentTargetVoteCount := total } : ClientState) from hlast)]
  rw [handleFinishRound_run ({ s with currentTargetVoteCount := total } : ClientState) hfin]

theorem countdown_finish (s : ClientState) (pid : String)
    (hsnap : s.snapCurrentPlayerId = some pid)
    (hadv : s.advancing = false) (hfin : s.finished = false)
    (hrun : s.countdownRunning = true)
    (hlast : isLastPlayer s) :
    countdownHitZero s =
      { s with finished := true, countdownRunning := false, votePollRunning := false,
               scoringRuns := s.scoringRuns + 1,
               settledWrites := s.settledWrites ++
                 [GameWrite.setPhaseAndPlayer Phase.scoreboard none],
               advancing := false, shownScoreboard := true,
               broadcasts := s.broadcasts + (if s.isHost then 1 else 0),
               countdown := 0 } := by
  unfold countdownHitZero
  rw [hrun, if_neg (show ¬ (true = false) from by decide)]
  simp only []
  rw [if_pos (show s.snapCurrentPlayerId ≠ none ∧ s.advancing = false ∧ s.finished = false from
    ⟨by simp [hsnap], hadv, hfin⟩)]
  rw [if_pos (show isLastPlayer ({ s with countdownRunning := false } : ClientState) from hlast)]
  rw [handleFinishRound_run ({ s with countdownRunning := false } : ClientState) hfin]
  rfl

theorem advanceToNextPlayer_finishes (s : ClientState) (i : Nat)
    (hadv : s.advancing = false) (hfin : s.finished = false)
    (hidx : currentIndexOf s = (i : Int))
    (hge : ((sortedOf s).length : Int) ≤ (i : Int) + 1) :
    advanceToNextPlayer s =
      { s with advancing := false, finished := true, countdownRunning := false,
               votePollRunning := false, scoringRuns := s.scoringRuns + 1,
               settledWrites := s.settledWrites ++
                 [GameWrite.setPhaseAndPlayer Phase.scoreboard none],
               shownScoreboard := true,
               broadcasts := s.broadcasts + (if s.isHost then 1 else 0) } := by
  unfold advanceToNextPlayer
  rw [hadv]
  have hidx1 : currentIndexOf { s with advancing := true } = (i : Int) := hidx
  have hge1 : ((sortedOf { s with advancing := true }).length : Int) ≤ (i : Int) + 1 := hge
  simp only [Bool.false_eq_true, if_false, hidx1]
  have h0 : (0 : Int) ≤ (i : Int) := Int.natCast_nonneg i
  rw [if_pos h0]
  rw [if_pos hge1]
  rw [handleFinishRound_run ({ s with advancing := true } : ClientState) hfin]

/-- Claim C1: when the presentation countdown reaching zero and the vote-count poll
observing count at or above the quorum fire back-to-back in the same tick on one client
(all handlers reading the same render snapshot of currentPlayerId), the engine performs
exactly one advance transition: the local turn pointer ends on the immediate successor
of the snapshot presenter, no round finish or scoring runs, and every store write issued
during the tick sets current_player to that single successor, in either firing order;
and any call to advanceToNextPlayer while the advancing flag is set is a no-op. -/
theorem advance_single_transition_c1 :
    (∀ s : ClientState, s.advancing = true → advanceToNextPlayer s = s) ∧
    (∀ (s : ClientState) (total : Int) (i : Nat) (pid : String),
      s.snapCurrentPlayerId = some pid →
      s.advancing = false → s.finished = false → s.countdownRunning = true →
      currentIndexOf s = (i : Int) →
      (i : Int) + 1 < ((sortedOf s).length : Int) →
      expectedVotesOf s ≤ total →
      (((refreshVoteCountAndMaybeAdvance total (countdownHitZero s)).localCurrentPlayerId =
          some (((sortedOf s).getD (i + 1) defaultPlayer).id) ∧
        (refreshVoteCountAndMaybeAdvance total (countdownHitZero s)).finished = false ∧
        (refreshVoteCountAndMaybeAdvance total (countdownHitZero s)).scoringRuns = s.scoringRuns ∧
        (refreshVoteCountAndMaybeAdvance total (countdownHitZero s)).settledWrites = s.settledWrites ∧
        ∀ w ∈ (refreshVoteCountAndMaybeAdvance total (countdownHitZero s)).pendingWrites,
          w ∈ s.pendingWrites ∨
            w = GameWrite.setCurrentPlayer (some (((sortedOf s).getD (i + 1) defaultPlayer).id))) ∧
       ((countdownHitZero (refreshVoteCountAndMaybeAdvance total s)).localCurrentPlayerId =
          some (((sortedOf s).getD (i + 1) defaultPlayer).id) ∧
        (countdownHitZero (refreshVoteCountAndMaybeAdvance total s)).finished = false ∧
        (countdownHitZero (refreshVoteCountAndMaybeAdvance total s)).scoringRuns = s.scoringRuns ∧
        (countdownHitZero (refreshVoteCountAndMaybeAdvance total s)).settledWrites = s.settledWrites ∧
        ∀ w ∈ (countdownHitZero (refreshVoteCountAndMaybeAdvance total s)).pendingWrites,
          w ∈ s.pendingWrites ∨
            w = GameWrite.setCurrentPlayer (some (((sortedOf s).getD (i + 1) defaultPlayer).id))))) := by
  constructor
  · exact advanceToNextPlayer_noop
  · intro s total i pid hsnap hadv hfin hrun hidx hlt hq
    constructor
    · rw [countdownHitZero_advance s i pid hsnap hadv hfin hrun hidx hlt]
      have e2 := refresh_advance
          { s with
            localCurrentPlayerId := some (((sortedOf s).getD (i + 1) defaultPlayer).id),
            countdown := PRESENTATION_DURATION_SECONDS,
            countdownRunning := true,
            pendingWrites := s.pendingWrites ++
              [GameWrite.setCurrentPlayer (some (((sortedOf s).getD (i + 1) defaultPlayer).id))],
            advancing := false }
          total i pid hsnap rfl hfin hidx hlt hq
      rw [e2]
      refine ⟨rfl, hfin, rfl, rfl, ?_⟩
      intro w hw
      simp only [List.append_assoc, List.mem_append, List.mem_singleton] at hw
      rcases hw with hw | hw | hw
      · exact Or.inl hw
      · exact Or.inr hw
      · exact Or.inr hw
    · rw [refresh_advance s total i pid hsnap hadv hfin hidx hlt hq]
      have e2 := countdownHitZero_advance
          { s with
            currentTargetVoteCount := total,
            localCurrentPlayerId := some (((sortedOf s).getD (i + 1) defaultPlayer).id),
            countdown := PRESENTATION_DURATION_SECONDS,
            countdownRunning := true,
            pendingWrites := s.pendingWrites ++
              [GameWrite.setCurrentPlayer (some (((sortedOf s).getD (i + 1) defaultPlayer).id))],
            advancing := false }
          i pid hsnap rfl hfin rfl hidx hlt
      rw [e2]
      refine ⟨rfl, hfin, rfl, rfl, ?_⟩
      intro w hw
      simp only [List.append_assoc, List.mem_append, List.mem_singleton] at hw
      rcases hw with hw | hw | hw
      · exact Or.inl hw
      · exact Or.inr hw
      · exact Or.inr hw

/-- Claim C2: the round-finish path is single-shot per client: running it twice gives
the same state as running it once, an invocation on an already-finished client is the
identity (no scoring, no phase write, no broadcast), and a single invocation performs
the scoring computation, the scoreboard phase write and the standings broadcast at most
once each, leaving the finished guard set. -/
theorem handleFinishRound_idempotent_c2 :
    (∀ s : ClientState, handleFinishRound (handleFinishRound s) = handleFinishRound s) ∧
    (∀ s : ClientState, s.finished = true → handleFinishRound s = s) ∧
    (∀ s : ClientState, (handleFinishRound s).scoringRuns ≤ s.scoringRuns + 1 ∧
      (handleFinishRound s).settledWrites.length ≤ s.settledWrites.length + 1 ∧
      (handleFinishRound s).broadcasts ≤ s.broadcasts + 1 ∧
      (handleFinishRound s).finished = true) := by
  refine ⟨?_, handleFinishRound_noop, ?_⟩
  · intro s
    cases hf : s.finished with
    | true => simp [handleFinishRound_noop s hf]
    | false =>
      rw [handleFinishRound_run s hf]
      exact handleFinishRound_noop _ rfl
  · intro s
    cases hf : s.finished with
    | true =>
      rw [handleFinishRound_noop s hf]
      exact ⟨Nat.le_succ _, Nat.le_succ _, Nat.le_succ _, hf⟩
    | false =>
      rw [handleFinishRound_run s hf]
      refine ⟨Nat.le_refl _, by simp, ?_, rfl⟩
      cases s.isHost <;> simp

/-- Claim C5: when an advance trigger (vote quorum reached, or countdown expired) fires
while the snapshot presenter is the last player of the derived turn order, the client
does not move to another Presenting state: it finishes the round, issuing the single
store update that sets Game.phase to scoreboard and current_player to null, with no
current_player Presenting write and no local turn-pointer move. -/
theorem finish_on_last_c5 (s : ClientState) (total : Int) (pid : String)
    (hsnap : s.snapCurrentPlayerId = some pid)
    (hadv : s.advancing = false) (hfin : s.finished = false)
    (hrun : s.countdownRunning = true)
    (hlast : isLastPlayer s)
    (hq : expectedVotesOf s ≤ total) :
    ((refreshVoteCountAndMaybeAdvance total s).finished = true ∧
      (refreshVoteCountAndMaybeAdvance total s).settledWrites =
        s.settledWrites ++ [GameWrite.setPhaseAndPlayer Phase.scoreboard none] ∧
      (refreshVoteCountAndMaybeAdvance total s).pendingWrites = s.pendingWrites ∧
      (refreshVoteCountAndMaybeAdvance total s).localCurrentPlayerId = s.localCurrentPlayerId) ∧
    ((countdownHitZero s).finished = true ∧
      (countdownHitZero s).settledWrites =
        s.settledWrites ++ [GameWrite.setPhaseAndPlayer Phase.scoreboard none] ∧
      (countdownHitZero s).pendingWrites = s.pendingWrites ∧
      (countdownHitZero s).localCurrentPlayerId = s.localCurrentPlayerId) := by
  rw [refresh_finish s total pid hsnap hadv hfin hlast hq]
  rw [countdown_finish s pid hsnap hadv hfin hrun hlast]
  exact ⟨⟨rfl, rfl, rfl, rfl⟩, ⟨rfl, rfl, rfl, rfl⟩⟩

/-- Claim C6: with a solo remaining player (expectedVotes = 0, a one-player turn order)
and no advance in flight, the solo fast-path effect advances the round immediately:
the round is finished with the scoreboard write, regardless of the countdown value
(no hypothesis on the countdown is needed, so no waiting for it is involved). -/
theorem solo_fast_path_c6 (s : ClientState)
    (hadv : s.advancing = false) (hfin : s.finished = false)
    (hidx : currentIndexOf s = 0)
    (hlen : (sortedOf s).length = 1) :
    (soloFastPath s).finished = true ∧
    (soloFastPath s).settledWrites =
      s.settledWrites ++ [GameWrite.setPhaseAndPlayer Phase.scoreboard none] ∧
    (soloFastPath s).scoringRuns = s.scoringRuns + 1 := by
  have hev : expectedVotesOf s = 0 := by
    unfold expectedVotesOf expectedVotes
    rw [show (sortedPlayers s.players) = sortedOf s from rfl, hlen]
    decide
  unfold soloFastPath
  rw [if_pos ⟨hev, hadv⟩]
  rw [advanceToNextPlayer_finishes s 0 hadv hfin (by simpa using hidx)
    (by rw [hlen]; norm_num)]
  exact ⟨rfl, rfl, rfl⟩

/-- Witness for C1 at a concrete two-player state: a second advance call while the flag
is set is a no-op, and the timer and quorum-poll triggers firing in the same tick leave
the turn pointer on the single successor, in both orders. -/
theorem advance_c1_witness :
    advanceToNextPlayer { baseState with advancing := true } =
      { baseState with advancing := true } ∧
    (((refreshVoteCountAndMaybeAdvance 5 (countdownHitZero baseState)).localCurrentPlayerId =
        some (((sortedOf baseState).getD (0 + 1) defaultPlayer).id) ∧
      (refreshVoteCountAndMaybeAdvance 5 (countdownHitZero baseState)).finished = false ∧
      (refreshVoteCountAndMaybeAdvance 5 (countdownHitZero baseState)).scoringRuns =
        baseState.scoringRuns ∧
      (refreshVoteCountAndMaybeAdvance 5 (countdownHitZero baseState)).settledWrites =
        baseState.settledWrites ∧
      ∀ w ∈ (refreshVoteCountAndMaybeAdvance 5 (countdownHitZero baseState)).pendingWrites,
        w ∈ baseState.pendingWrites ∨
          w = GameWrite.setCurrentPlayer
            (some (((sortedOf baseState).getD (0 + 1) defaultPlayer).id))) ∧
     ((countdownHitZero (refreshVoteCountAndMaybeAdvance 5 baseState)).localCurrentPlayerId =
        some (((sortedOf baseState).getD (0 + 1) defaultPlayer).id) ∧
      (countdownHitZero (refreshVoteCountAndMaybeAdvance 5 baseState)).finished = false ∧
      (countdownHitZero (refreshVoteCountAndMaybeAdvance 5 baseState)).scoringRuns =
        baseState.scoringRuns ∧
      (countdownHitZero (refreshVoteCountAndMaybeAdvance 5 baseState)).settledWrites =
        baseState.settledWrites ∧
      ∀ w ∈ (countdownHitZero (refreshVoteCountAndMaybeAdvance 5 baseState)).pendingWrites,
        w ∈ baseState.pendingWrites ∨
          w = GameWrite.setCurrentPlayer
            (some (((sortedOf baseState).getD (0 + 1) defaultPlayer).id)))) :=
  ⟨advance_single_transition_c1.1 { baseState with advancing := true } rfl,
   advance_single_transition_c1.2 baseState 5 0 "a" (by decide) (by decide) (by decide)
     (by decide) (by decide) (by decide) (by decide)⟩

/-- Witness for C2 at concrete states: a second finish invocation is the identity once
the guard is set, and the double call equals the single call. -/
theorem finish_c2_witness :
    handleFinishRound { baseState with finished := true } =
      { baseState with finished := true } ∧
    handleFinishRound (handleFinishRound baseState) = handleFinishRound baseState :=
  ⟨handleFinishRound_idempotent_c2.2.1 { baseState with finished := true } rfl,
   handleFinishRound_idempotent_c2.1 baseState⟩

/-- Witness for C5 at a concrete state whose presenter is the last in turn order: both
triggers finish the round with the single scoreboard-and-null write. -/
theorem finish_c5_witness :
    ((refreshVoteCountAndMaybeAdvance 5 lastState).finished = true ∧
      (refreshVoteCountAndMaybeAdvance 5 lastState).settledWrites =
        lastState.settledWrites ++ [GameWrite.setPhaseAndPlayer Phase.scoreboard none] ∧
      (refreshVoteCountAndMaybeAdvance 5 lastState).pendingWrites = lastState.pendingWrites ∧
      (refreshVoteCountAndMaybeAdvance 5 lastState).localCurrentPlayerId =
        lastState.localCurrentPlayerId) ∧
    ((countdownHitZero lastState).finished = true ∧
      (countdownHitZero lastState).settledWrites =
        lastState.settledWrites ++ [GameWrite.setPhaseAndPlayer Phase.scoreboard none] ∧
      (countdownHitZero lastState).pendingWrites = lastState.pendingWrites ∧
      (countdownHitZero lastState).localCurrentPlayerId = lastState.localCurrentPlayerId) :=
  finish_on_last_c5 lastState 5 "c" (by decide) (by decide) (by decide) (by decide)
    (by decide) (by decide)

/-- Witness for C6 at a concrete solo-player state with a fresh countdown: the solo
fast path finishes the round at once. -/
theorem solo_c6_witness :
    (soloFastPath soloState).finished = true ∧
    (soloFastPath soloState).settledWrites =
      soloState.settledWrites ++ [GameWrite.setPhaseAndPlayer Phase.scoreboard none] ∧
    (soloFastPath soloState).scoringRuns = soloState.scoringRuns + 1 :=
  solo_fast_path_c6 soloState (by decide) (by decide) (by decide) (by decide)

/-- Counterexample to claim C7: at this concrete state a submit-vote attempt that
passes the local guard and fails on the network rolls hasVoted back and keeps the star
selection, but surfaces nothing to the user: the failure only increments the console
warning count and the user-facing alert list stays empty (the current Rating screen
does not even import Alert). -/
theorem submit_c7_counterexample :
    (submitCurrentVote false voteState).hasVoted = false ∧
    (submitCurrentVote false voteState).selectedStars = 3 ∧
    (submitCurrentVote false voteState).warnings = voteState.warnings + 1 ∧
    (submitCurrentVote false voteState).alerts = voteState.alerts := by
  refine ⟨?_, ?_, ?_, ?_⟩ <;> decide

/-- Amended claim C7: for a submit attempt that passes the local guard, a failing call
rolls hasVoted back to false and preserves the selected stars so the vote remains
re-submittable, but the error is only logged (console warning), not surfaced as a user
alert; a successful call leaves hasVoted true and the stars unchanged. -/
theorem submit_rollback_c7_amended (s : ClientState)
    (hcp : (currentPlayerOf s).isSome = true)
    (hstars : s.selectedStars ≠ 0) (hfin : s.finished = false) :
    ((submitCurrentVote false s).hasVoted = false ∧
     (submitCurrentVote false s).selectedStars = s.selectedStars ∧
     (submitCurrentVote false s).warnings = s.warnings + 1 ∧
     (submitCurrentVote false s).alerts = s.alerts) ∧
    ((submitCurrentVote true s).hasVoted = true ∧
     (submitCurrentVote true s).selectedStars = s.selectedStars ∧
     (submitCurrentVote true s).alerts = s.alerts) := by
  have hguard : ¬ ((currentPlayerOf s).isNone = true ∨ s.selectedStars = 0 ∨
      s.finished = true) := by
    intro h
    rcases h with h | h | h
    · cases hc : currentPlayerOf s with
      | none => rw [hc] at hcp; exact absurd hcp (by decide)
      | some p => rw [hc] at h; exact absurd h (by simp)
    · exact hstars h
    · rw [hfin] at h; exact absurd h (by decide)
  have hfail : submitCurrentVote false s = { s with hasVoted := false, warnings := s.warnings + 1 } := by
    unfold submitCurrentVote
    rw [if_neg hguard]
    rfl
  have hok : submitCurrentVote true s = { s with hasVoted := true, refreshRequested := true } := by
    unfold submitCurrentVote
    rw [if_neg hguard]
    rfl
  rw [hfail, hok]
  exact ⟨⟨rfl, rfl, rfl, rfl⟩, ⟨rfl, rfl, rfl⟩⟩

/-- Witness for the amended C7 at a concrete state with three stars selected. -/
theorem submit_c7_amended_witness :
    ((submitCurrentVote false voteState).hasVoted = false ∧
     (submitCurrentVote false voteState).selectedStars = voteState.selectedStars ∧
     (submitCurrentVote false voteState).warnings = voteState.warnings + 1 ∧
     (submitCurrentVote false voteState).alerts = voteState.alerts) ∧
    ((submitCurrentVote true voteState).hasVoted = true ∧
     (submitCurrentVote true voteState).selectedStars = voteState.selectedStars ∧
     (submitCurrentVote true voteState).alerts = voteState.alerts) :=
  submit_rollback_c7_amended voteState (by decide) (by decide) (by decide)

/-- Counterexample to claim C8: at this concrete two-player state the advance returns
with the advancing flag already cleared while the current_player store write it issued
is still in flight: the code fires the write without awaiting it and clears the flag in
a synchronous finally block, so the flag does not stay set until the write settles. -/
theorem advance_c8_counterexample :
    (advanceToNextPlayer baseState).advancing = false ∧
    (advanceToNextPlayer baseState).pendingWrites =
      [GameWrite.setCurrentPlayer (some "c")] := by
  refine ⟨?_, ?_⟩ <;> decide

/-- Amended claim C8: the guards are set synchronously when their operation starts, a
call of advanceToNextPlayer while advancing is set is a no-op, and a finished client
never re-runs the finish path; but on the Presenting path the advancing flag is cleared
synchronously at the end of the local update, with the fire-and-forget current_player
write still pending (success or failure of that write only logs); on the finish path
the flag is cleared by handleFinishRound after its awaited operations and the finished
guard is left permanently set. -/
theorem guards_c8_amended :
    (∀ s : ClientState, s.advancing = true → advanceToNextPlayer s = s) ∧
    (∀ (s : ClientState) (i : Nat), s.advancing = false →
      currentIndexOf s = (i : Int) →
      (i : Int) + 1 < ((sortedOf s).length : Int) →
      (advanceToNextPlayer s).advancing = false ∧
      (advanceToNextPlayer s).pendingWrites = s.pendingWrites ++
        [GameWrite.setCurrentPlayer (some (((sortedOf s).getD (i + 1) defaultPlayer).id))]) ∧
    (∀ s : ClientState, s.finished = false →
      (handleFinishRound s).advancing = false ∧ (handleFinishRound s).finished = true) ∧
    (∀ s : ClientState, s.finished = true → handleFinishRound s = s) := by
  refine ⟨advanceToNextPlayer_noop, ?_, ?_, handleFinishRound_noop⟩
  · intro s i hadv hidx hlt
    rw [advanceToNextPlayer_step s i hadv hidx hlt]
    exact ⟨rfl, rfl⟩
  · intro s hfin
    rw [handleFinishRound_run s hfin]
    exact ⟨rfl, rfl⟩

/-- Witness for the amended C8 at concrete states. -/
theorem guards_c8_amended_witness :
    advanceToNextPlayer { baseState with advancing := true } =
      { baseState with advancing := true } ∧
    ((advanceToNextPlayer baseState).advancing = false ∧
      (advanceToNextPlayer baseState).pendingWrites = baseState.pendingWrites ++
        [GameWrite.setCurrentPlayer
          (some (((sortedOf baseState).getD (0 + 1) defaultPlayer).id))]) ∧
    ((handleFinishRound baseState).advancing = false ∧
      (handleFinishRound baseState).finished = true) ∧
    handleFinishRound { baseState with finished := true } =
      { baseState with finished := true } :=
  ⟨guards_c8_amended.1 { baseState with advancing := true } rfl,
   guards_c8_amended.2.1 baseState 0 (by decide) (by decide) (by decide),
   guards_c8_amended.2.2.1 baseState (by decide),
   guards_c8_amended.2.2.2 { baseState with finished := true } rfl⟩

/-- Counterexample to claim C9: a publishing host with an active peer session (manager
0, counterpart v1) receives a new offer from the same viewer; the handler installs a
fresh manager 1 without closing manager 0, so two open sessions exist simultaneously
for the same (host, v1) pair and the replaced manager is orphaned (later cleanups close
only the installed manager). -/
theorem peer_c9_counterexample :
    (handleSignalingOffer "v1" none liveBase).openPeers = [0, 1] ∧
    (handleSignalingOffer "v1" none liveBase).installedPeer = some 1 ∧
    (handleSignalingOffer "v1" none liveBase).target = some "v1" ∧
    liveBase.installedPeer = some 0 ∧ liveBase.target = some "v1" := by
  refine ⟨?_, ?_, ?_, ?_, ?_⟩ <;> decide

/-- Amended claim C9: at most one peer session is installed (peerRef) at a time, and
cleanup closes exactly the installed one; but creating a new session (a new offer while
publishing, or a new viewer connection) does not close the previously active manager:
the new manager is installed over it and the old manager stays open, orphaned. -/
theorem peer_c9_amended :
    (∀ (s : LiveState) (fromUserId : String) (m : Nat),
      s.installedPeer = some m → m ∈ s.openPeers →
      fromUserId ≠ s.selfId →
      s.isPublishingSnap = true → s.hasLocalStream = true →
      (handleSignalingOffer fromUserId none s).installedPeer = some s.nextId ∧
      m ∈ (handleSignalingOffer fromUserId none s).openPeers ∧
      s.nextId ∈ (handleSignalingOffer fromUserId none s).openPeers) ∧
    (∀ (s : LiveState) (ownerId : String) (m : Nat),
      s.installedPeer = some m → m ∈ s.openPeers →
      (requestViewerConnection ownerId s).installedPeer = some s.nextId ∧
      m ∈ (requestViewerConnection ownerId s).openPeers ∧
      s.nextId ∈ (requestViewerConnection ownerId s).openPeers) ∧
    (∀ s : LiveState, (cleanupPeer s).installedPeer = none ∧
      (cleanupPeer s).peerRole = none ∧ (cleanupPeer s).target = none) := by
  refine ⟨?_, ?_, ?_⟩
  · intro s fromUserId m hm hmem hself hpub hstream
    unfold handleSignalingOffer
    rw [if_neg hself]
    rw [if_neg (show ¬ ((none : Option String).isSome = true ∧
        (none : Option String) ≠ some s.selfId) from by simp)]
    rw [if_neg (show ¬ (s.isPublishingSnap = false ∨ s.hasLocalStream = false) from by
      simp [hpub, hstream])]
    refine ⟨rfl, ?_, ?_⟩
    · simp [hmem]
    · simp
  · intro s ownerId m hm hmem
    unfold requestViewerConnection
    refine ⟨rfl, ?_, ?_⟩
    · simp [hmem]
    · simp
  · intro s
    exact ⟨rfl, rfl, rfl⟩

/-- Witness for the amended C9 at the concrete publishing state. -/
theorem peer_c9_amended_witness :
    ((handleSignalingOffer "v2" none liveBase).installedPeer = some liveBase.nextId ∧
      0 ∈ (handleSignalingOffer "v2" none liveBase).openPeers ∧
      liveBase.nextId ∈ (handleSignalingOffer "v2" none liveBase).openPeers) ∧
    ((requestViewerConnection "owner" liveBase).installedPeer = some liveBase.nextId ∧
      0 ∈ (requestViewerConnection "owner" liveBase).openPeers ∧
      liveBase.nextId ∈ (requestViewerConnection "owner" liveBase).openPeers) ∧
    ((cleanupPeer liveBase).installedPeer = none ∧
      (cleanupPeer liveBase).peerRole = none ∧ (cleanupPeer liveBase).target = none) :=
  ⟨peer_c9_amended.1 liveBase "v2" 0 (by decide) (by decide) (by decide) (by decide)
     (by decide),
   peer_c9_amended.2.1 liveBase "owner" 0 (by decide) (by decide),
   peer_c9_amended.2.2 liveBase⟩
